import Mathlib

/-! KomaHub USB command vocabulary

A verification development over `firmware/src/USBCommands.h`: the opcode
enumeration `USBCommand` and the seven payload records.  The header holds
declarations only, so the embedding consists of

* the enumeration with its value map,
* every record both as a Lean structure (its set of values) and as a
  declaration (`StructDecl`, the ordered list of its fields and their C types),
* the layout rule a C compiler applies to such a declaration.
-/

namespace KomaHub

/-! ## Opcode enumeration -/

/-- The enumeration `USBCommand` of `USBCommands.h`, constant by constant. -/
inductive USBCommand where
  | END
  | IDENTIFY
  | GETFACTORYSETTINGS
  | GETOUTPUTSETTINGS
  | GETSTATUS
  | SETRELAY
  | SETPWMDUTY
  | RESETFUSE
  | CONFIGUREOUTPUT
  | DUMPFACTORY
  | DUMPOUTPUTS
  | DUMPSTATE
  | FACTORYRESET
  deriving DecidableEq, Repr, Fintype

/-- The enumerator value the header assigns to each constant. -/
def USBCommand.value : USBCommand → Nat
  | .END => 0x00
  | .IDENTIFY => 0x01
  | .GETFACTORYSETTINGS => 0x02
  | .GETOUTPUTSETTINGS => 0x03
  | .GETSTATUS => 0x04
  | .SETRELAY => 0x10
  | .SETPWMDUTY => 0x11
  | .RESETFUSE => 0x12
  | .CONFIGUREOUTPUT => 0x13
  | .DUMPFACTORY => 0xF0
  | .DUMPOUTPUTS => 0xF1
  | .DUMPSTATE => 0xF2
  | .FACTORYRESET => 0xFA

/-- The constants in the order the header declares them. -/
def USBCommand.all : List USBCommand :=
  [.END, .IDENTIFY, .GETFACTORYSETTINGS, .GETOUTPUTSETTINGS, .GETSTATUS,
   .SETRELAY, .SETPWMDUTY, .RESETFUSE, .CONFIGUREOUTPUT,
   .DUMPFACTORY, .DUMPOUTPUTS, .DUMPSTATE, .FACTORYRESET]

/-- The constants whose value lies in the closed range from lo to hi. -/
def USBCommand.inRange (lo hi : Nat) : List USBCommand :=
  USBCommand.all.filter (fun c => decide (lo ≤ c.value ∧ c.value ≤ hi))

/-- How many of the three opcode ranges contain the value of a constant. -/
def USBCommand.rangeCount (c : USBCommand) : Nat :=
  (if 0x00 ≤ c.value ∧ c.value ≤ 0x04 then 1 else 0)
    + (if 0x10 ≤ c.value ∧ c.value ≤ 0x13 then 1 else 0)
    + (if 0xF0 ≤ c.value ∧ c.value ≤ 0xFA then 1 else 0)

/-! ## Field types and record declarations -/

/-- The values of a C `uint8_t`: the numbers 0..255. -/
abbrev uint8_t := Fin 256

/-- The values of a C `uint16_t`: the numbers 0..65535. -/
abbrev uint16_t := Fin 65536

/-- The values of a C `char[n]`: exactly n bytes, none of them special. -/
abbrev CharArray (n : Nat) := { l : List uint8_t // l.length = n }

/-- The C types the header uses for record fields. -/
inductive CType where
  | uint8
  | uint16
  | charArray (n : Nat)
  deriving DecidableEq, Repr

/-- The `sizeof` of a field type, in bytes. -/
def CType.width : CType → Nat
  | .uint8 => 1
  | .uint16 => 2
  | .charArray n => n

/-- Natural alignment: a scalar is aligned to its own width, an array to the
alignment of its element. -/
def CType.naturalAlign : CType → Nat
  | .uint8 => 1
  | .uint16 => 2
  | .charArray _ => 1

/-- Byte alignment, as on the 8-bit AVR target of the firmware. -/
def CType.byteAlign : CType → Nat
  | _ => 1

/-- One field of a record declaration. -/
structure Field where
  name : String
  type : CType
  deriving DecidableEq, Repr

/-- A `struct` declaration: its tag and its fields in declaration order. -/
structure StructDecl where
  name : String
  fields : List Field
  deriving DecidableEq, Repr

/-- Declaration of `struct FactoryResetCommand`. -/
def FactoryResetCommand.decl : StructDecl :=
  ⟨"FactoryResetCommand",
    [⟨"serial", .uint16⟩, ⟨"r6ohms", .uint16⟩, ⟨"r7ohms", .uint16⟩]⟩

/-- Declaration of `struct GetOutputSettingsCommand`. -/
def GetOutputSettingsCommand.decl : StructDecl :=
  ⟨"GetOutputSettingsCommand", [⟨"outputNumber", .uint8⟩]⟩

/-- Declaration of `struct UpdateSettingsCommand`. -/
def UpdateSettingsCommand.decl : StructDecl :=
  ⟨"UpdateSettingsCommand",
    [⟨"features", .uint8⟩, ⟨"sqmzeropoint", .uint8⟩, ⟨"fusespeed", .uint8⟩]⟩

/-- Declaration of `struct SetRelayCommand`. -/
def SetRelayCommand.decl : StructDecl :=
  ⟨"SetRelayCommand", [⟨"outputNumber", .uint8⟩, ⟨"enabled", .uint8⟩]⟩

/-- Declaration of `struct SetPwmDutyCommand`. -/
def SetPwmDutyCommand.decl : StructDecl :=
  ⟨"SetPwmDutyCommand", [⟨"outputNumber", .uint8⟩, ⟨"duty", .uint8⟩]⟩

/-- Declaration of `struct ResetFuseCommand`. -/
def ResetFuseCommand.decl : StructDecl :=
  ⟨"ResetFuseCommand", [⟨"outputNumber", .uint8⟩]⟩

/-- Declaration of `struct ConfigureOutputCommand`. -/
def ConfigureOutputCommand.decl : StructDecl :=
  ⟨"ConfigureOutputCommand",
    [⟨"outputNumber", .uint8⟩, ⟨"outputType", .uint8⟩, ⟨"fuseCurrent", .uint8⟩,
     ⟨"name", .charArray 16⟩]⟩

/-- The seven payload records, in the order the header declares them. -/
def payloadRecords : List StructDecl :=
  [FactoryResetCommand.decl, GetOutputSettingsCommand.decl,
   UpdateSettingsCommand.decl, SetRelayCommand.decl, SetPwmDutyCommand.decl,
   ResetFuseCommand.decl, ConfigureOutputCommand.decl]

/-! ## Layout of a record declaration -/

/-- The least multiple of `a` that is not below `off` (for `a` at least 1). -/
def alignUp (off a : Nat) : Nat :=
  (off + a - 1) / a * a

/-- Lay the fields out one after the other from byte `off`, each at the next
offset its alignment `al` allows; the result is the offset of every field and
the first byte after the last one. -/
def layoutFrom (al : CType → Nat) (off : Nat) : List Field → List Nat × Nat
  | [] => ([], off)
  | f :: fs =>
    let o := alignUp off (al f.type)
    let r := layoutFrom al (o + f.type.width) fs
    (o :: r.1, r.2)

/-- The offset of every field, in declaration order. -/
def StructDecl.offsets (al : CType → Nat) (d : StructDecl) : List Nat :=
  (layoutFrom al 0 d.fields).1

/-- The alignment of the record: the largest alignment among its fields. -/
def StructDecl.alignment (al : CType → Nat) (d : StructDecl) : Nat :=
  (d.fields.map (fun f => al f.type)).foldl max 1

/-- The `sizeof` of the record: the end of its last field, rounded up to the
alignment of the record. -/
def StructDecl.sizeof (al : CType → Nat) (d : StructDecl) : Nat :=
  alignUp (layoutFrom al 0 d.fields).2 (d.alignment al)

/-- The `offsetof` of the field called `fname`, when the record has one. -/
def StructDecl.offsetOf (al : CType → Nat) (d : StructDecl) (fname : String) :
    Option Nat :=
  ((d.fields.map (fun f => f.name)).zip (d.offsets al)).lookup fname

/-- The field that occupies byte `i` of the record; `none` for a padding byte
and for a byte outside the record. -/
def StructDecl.fieldAt (al : CType → Nat) (d : StructDecl) (i : Nat) :
    Option String :=
  ((d.fields.zip (d.offsets al)).find?
    (fun p => decide (p.2 ≤ i ∧ i < p.2 + p.1.type.width))).map (fun p => p.1.name)

/-- The sum of the widths of the first `i` fields. -/
def StructDecl.widthsBefore (d : StructDecl) (i : Nat) : Nat :=
  ((d.fields.take i).map (fun f => f.type.width)).sum

/-- The sum of the widths of all fields. -/
def StructDecl.widthSum (d : StructDecl) : Nat :=
  (d.fields.map (fun f => f.type.width)).sum

/-- The offsets a layout without any gap gives: each field right after the
one before it. -/
def StructDecl.packedOffsets (d : StructDecl) : List Nat :=
  (List.range d.fields.length).map d.widthsBefore

/-- All byte positions below `n`. -/
def bytePositions (n : Nat) : List Nat :=
  List.range n

/-! ## The records as value types -/

/-- The values of `struct FactoryResetCommand`. -/
structure FactoryResetCommand where
  serial : uint16_t
  r6ohms : uint16_t
  r7ohms : uint16_t
  deriving DecidableEq, Repr

/-- The values of `struct GetOutputSettingsCommand`. -/
structure GetOutputSettingsCommand where
  outputNumber : uint8_t
  deriving DecidableEq, Repr

/-- The values of `struct UpdateSettingsCommand`. -/
structure UpdateSettingsCommand where
  features : uint8_t
  sqmzeropoint : uint8_t
  fusespeed : uint8_t
  deriving DecidableEq, Repr

/-- The values of `struct SetRelayCommand`. -/
structure SetRelayCommand where
  outputNumber : uint8_t
  enabled : uint8_t
  deriving DecidableEq, Repr

/-- The values of `struct SetPwmDutyCommand`; the header annotates `duty`
with the comment `0-100` and declares it a plain `uint8_t`. -/
structure SetPwmDutyCommand where
  outputNumber : uint8_t
  duty : uint8_t
  deriving DecidableEq, Repr

/-- The values of `struct ResetFuseCommand`. -/
structure ResetFuseCommand where
  outputNumber : uint8_t
  deriving DecidableEq, Repr

/-- The values of `struct ConfigureOutputCommand`. -/
structure ConfigureOutputCommand where
  outputNumber : uint8_t
  outputType : uint8_t
  fuseCurrent : uint8_t
  name : CharArray 16
  deriving DecidableEq

/-! ## Wire encoding

The header has no serialisation routine.  The specification asks for an
explicit field-by-field encode and decode routine per record, with the fields
in declaration order at their declared widths and without padding, and leaves
the byte order of the 16-bit fields to the transport; the definitions below
follow that wording, with the byte order as a parameter. -/

/-- The two byte orders a transport can fix for a 16-bit field. -/
inductive ByteOrder where
  | little
  | big
  deriving DecidableEq, Repr

/-- Modelled from the spec: the two wire bytes of a 16-bit field in the byte
order of the transport (the header has no encoder; section 9 leaves the order
open). -/
def encodeU16 (bo : ByteOrder) (v : uint16_t) : List uint8_t :=
  let lo : uint8_t := ⟨v.val % 256, Nat.mod_lt _ (by decide)⟩
  let hi : uint8_t := ⟨v.val / 256, by have := v.isLt; omega⟩
  match bo with
  | .little => [lo, hi]
  | .big => [hi, lo]

/-- Modelled from the spec: the 16-bit field read back from its two wire bytes,
given in wire order (the header has no decoder). -/
def decodeU16 (bo : ByteOrder) (b0 b1 : uint8_t) : uint16_t :=
  match bo with
  | .little => ⟨b0.val + 256 * b1.val, by have := b0.isLt; have := b1.isLt; omega⟩
  | .big => ⟨b1.val + 256 * b0.val, by have := b0.isLt; have := b1.isLt; omega⟩

/-- Modelled from the spec: the opcode travels as one byte that holds its
numeric value (section 6: opcode byte, then payload bytes; the header has no
framing code). -/
def USBCommand.encode (c : USBCommand) : List uint8_t :=
  [⟨c.value, by cases c <;> decide⟩]

/-- Modelled from the spec: field-by-field encoder of FactoryResetCommand,
missing from the header. -/
def FactoryResetCommand.encode (bo : ByteOrder) (c : FactoryResetCommand) :
    List uint8_t :=
  encodeU16 bo c.serial ++ encodeU16 bo c.r6ohms ++ encodeU16 bo c.r7ohms

/-- Modelled from the spec: field-by-field decoder of FactoryResetCommand,
missing from the header. -/
def FactoryResetCommand.decode (bo : ByteOrder) :
    List uint8_t → Option FactoryResetCommand
  | [s0, s1, a0, a1, b0, b1] =>
    some ⟨decodeU16 bo s0 s1, decodeU16 bo a0 a1, decodeU16 bo b0 b1⟩
  | _ => none

/-- Modelled from the spec: field-by-field encoder of GetOutputSettingsCommand,
missing from the header. -/
def GetOutputSettingsCommand.encode (c : GetOutputSettingsCommand) : List uint8_t :=
  [c.outputNumber]

/-- Modelled from the spec: field-by-field decoder of GetOutputSettingsCommand,
missing from the header. -/
def GetOutputSettingsCommand.decode : List uint8_t → Option GetOutputSettingsCommand
  | [o] => some ⟨o⟩
  | _ => none

/-- Modelled from the spec: field-by-field encoder of UpdateSettingsCommand,
missing from the header. -/
def UpdateSettingsCommand.encode (c : UpdateSettingsCommand) : List uint8_t :=
  [c.features, c.sqmzeropoint, c.fusespeed]

/-- Modelled from the spec: field-by-field decoder of UpdateSettingsCommand,
missing from the header. -/
def UpdateSettingsCommand.decode : List uint8_t → Option UpdateSettingsCommand
  | [f, z, s] => some ⟨f, z, s⟩
  | _ => none

/-- Modelled from the spec: field-by-field encoder of SetRelayCommand, missing
from the header. -/
def SetRelayCommand.encode (c : SetRelayCommand) : List uint8_t :=
  [c.outputNumber, c.enabled]

/-- Modelled from the spec: field-by-field decoder of SetRelayCommand, missing
from the header. -/
def SetRelayCommand.decode : List uint8_t → Option SetRelayCommand
  | [o, e] => some ⟨o, e⟩
  | _ => none

/-- Modelled from the spec: field-by-field encoder of SetPwmDutyCommand, missing
from the header. -/
def SetPwmDutyCommand.encode (c : SetPwmDutyCommand) : List uint8_t :=
  [c.outputNumber, c.duty]

/-- Modelled from the spec: field-by-field decoder of SetPwmDutyCommand, missing
from the header. -/
def SetPwmDutyCommand.decode : List uint8_t → Option SetPwmDutyCommand
  | [o, d] => some ⟨o, d⟩
  | _ => none

/-- Modelled from the spec: field-by-field encoder of ResetFuseCommand, missing
from the header. -/
def ResetFuseCommand.encode (c : ResetFuseCommand) : List uint8_t :=
  [c.outputNumber]

/-- Modelled from the spec: field-by-field decoder of ResetFuseCommand, missing
from the header. -/
def ResetFuseCommand.decode : List uint8_t → Option ResetFuseCommand
  | [o] => some ⟨o⟩
  | _ => none

/-- Modelled from the spec: field-by-field encoder of ConfigureOutputCommand,
missing from the header; the name goes out as its 16 raw bytes. -/
def ConfigureOutputCommand.encode (c : ConfigureOutputCommand) : List uint8_t :=
  c.outputNumber :: c.outputType :: c.fuseCurrent :: c.name.val

/-- Modelled from the spec: field-by-field decoder of ConfigureOutputCommand,
missing from the header; the 16 bytes after the three scalars are the name. -/
def ConfigureOutputCommand.decode : List uint8_t → Option ConfigureOutputCommand
  | o :: t :: f :: rest =>
    if h : rest.length = 16 then some ⟨o, t, f, ⟨rest, h⟩⟩ else none
  | _ => none

/-- The FactoryResetCommand whose fields are all zero. -/
def FactoryResetCommand.zero : FactoryResetCommand := ⟨0, 0, 0⟩

/-- The GetOutputSettingsCommand whose field is zero. -/
def GetOutputSettingsCommand.zero : GetOutputSettingsCommand := ⟨0⟩

/-- The UpdateSettingsCommand whose fields are all zero. -/
def UpdateSettingsCommand.zero : UpdateSettingsCommand := ⟨0, 0, 0⟩

/-- The SetRelayCommand whose fields are all zero. -/
def SetRelayCommand.zero : SetRelayCommand := ⟨0, 0⟩

/-- The SetPwmDutyCommand whose fields are all zero. -/
def SetPwmDutyCommand.zero : SetPwmDutyCommand := ⟨0, 0⟩

/-- The ResetFuseCommand whose field is zero. -/
def ResetFuseCommand.zero : ResetFuseCommand := ⟨0⟩

/-- The ConfigureOutputCommand whose fields, name bytes included, are all zero. -/
def ConfigureOutputCommand.zero : ConfigureOutputCommand :=
  ⟨0, 0, 0, ⟨List.replicate 16 0, List.length_replicate 16 0⟩⟩

/-- A name of sixteen letters A (byte 0x41), without any zero byte. -/
def nameAllA : CharArray 16 :=
  ⟨List.replicate 16 0x41, List.length_replicate 16 0x41⟩

/-- A name with a zero byte in the middle: "AB", a zero byte, then thirteen
letters C. -/
def nameEmbeddedNul : CharArray 16 :=
  ⟨[0x41, 0x42, 0x00] ++ List.replicate 13 0x43, by decide⟩

/-! ## Theorems on the enumeration -/

/-- C1: every constant of USBCommand has the value the header gives it, and
the enumeration consists of these thirteen constants and no others. -/
theorem usbCommand_values :
    USBCommand.END.value = 0x00 ∧ USBCommand.IDENTIFY.value = 0x01
      ∧ USBCommand.GETFACTORYSETTINGS.value = 0x02
      ∧ USBCommand.GETOUTPUTSETTINGS.value = 0x03
      ∧ USBCommand.GETSTATUS.value = 0x04
      ∧ USBCommand.SETRELAY.value = 0x10 ∧ USBCommand.SETPWMDUTY.value = 0x11
      ∧ USBCommand.RESETFUSE.value = 0x12
      ∧ USBCommand.CONFIGUREOUTPUT.value = 0x13
      ∧ USBCommand.DUMPFACTORY.value = 0xF0 ∧ USBCommand.DUMPOUTPUTS.value = 0xF1
      ∧ USBCommand.DUMPSTATE.value = 0xF2 ∧ USBCommand.FACTORYRESET.value = 0xFA
      ∧ Fintype.card USBCommand = 13
      ∧ USBCommand.all.length = 13 ∧ USBCommand.all.Nodup
      ∧ (∀ c : USBCommand, c ∈ USBCommand.all)
      ∧ USBCommand.all.map USBCommand.value
          = [0x00, 0x01, 0x02, 0x03, 0x04, 0x10, 0x11, 0x12, 0x13,
             0xF0, 0xF1, 0xF2, 0xFA] := by
  refine ⟨rfl, rfl, rfl, rfl, rfl, rfl, rfl, rfl, rfl, rfl, rfl, rfl, rfl,
    rfl, rfl, by decide, ?_, rfl⟩
  intro c
  cases c <;> decide

/-- C2: the value map of USBCommand lands in the byte range 0..255 and is
injective, so no two opcodes share a value. -/
theorem usbCommand_value_injective :
    (∀ c : USBCommand, 0 ≤ c.value ∧ c.value ≤ 255)
      ∧ (∀ c1 c2 : USBCommand, c1.value = c2.value → c1 = c2)
      ∧ Function.Injective USBCommand.value := by
  have inj : ∀ c1 c2 : USBCommand, c1.value = c2.value → c1 = c2 := by
    intro c1 c2
    cases c1 <;> cases c2 <;> decide
  refine ⟨?_, inj, fun a b h => inj a b h⟩
  intro c
  cases c <;> decide

/-- C3: every opcode value lies in exactly one of the ranges 0x00..0x04,
0x10..0x13 and 0xF0..0xFA, and each range holds exactly the constants the
specification lists for it. -/
theorem usbCommand_range_partition :
    (∀ c : USBCommand, c.rangeCount = 1)
      ∧ USBCommand.inRange 0x00 0x04
          = [.END, .IDENTIFY, .GETFACTORYSETTINGS, .GETOUTPUTSETTINGS, .GETSTATUS]
      ∧ USBCommand.inRange 0x10 0x13
          = [.SETRELAY, .SETPWMDUTY, .RESETFUSE, .CONFIGUREOUTPUT]
      ∧ USBCommand.inRange 0xF0 0xFA
          = [.DUMPFACTORY, .DUMPOUTPUTS, .DUMPSTATE, .FACTORYRESET]
      ∧ (∀ c : USBCommand, (0x00 ≤ c.value ∧ c.value ≤ 0x04) ↔
          c ∈ [USBCommand.END, .IDENTIFY, .GETFACTORYSETTINGS,
               .GETOUTPUTSETTINGS, .GETSTATUS])
      ∧ (∀ c : USBCommand, (0x10 ≤ c.value ∧ c.value ≤ 0x13) ↔
          c ∈ [USBCommand.SETRELAY, .SETPWMDUTY, .RESETFUSE, .CONFIGUREOUTPUT])
      ∧ (∀ c : USBCommand, (0xF0 ≤ c.value ∧ c.value ≤ 0xFA) ↔
          c ∈ [USBCommand.DUMPFACTORY, .DUMPOUTPUTS, .DUMPSTATE, .FACTORYRESET]) := by
  refine ⟨?_, by decide, by decide, by decide, ?_, ?_, ?_⟩ <;> intro c <;>
    cases c <;> decide

/-! ## Theorems on the record layout -/

/-- C4: under the layout rule (fields in declaration order, each aligned to
its own width, size rounded up to the largest field alignment) every payload
record is laid out without padding: each field starts at the sum of the widths
of the fields before it, the size is the sum of the field widths, every byte
of the record belongs to a field, and byte alignment gives the same layout.
The sizes are 6, 1, 3, 2, 2, 1 and 19 bytes; FactoryResetCommand has offsets
0, 2, 4 and ConfigureOutputCommand has offsets 0, 1, 2 with name at 3..18. -/
theorem payload_layout_no_padding :
    (∀ d ∈ payloadRecords,
        d.offsets CType.naturalAlign = d.packedOffsets
          ∧ d.sizeof CType.naturalAlign = d.widthSum
          ∧ (∀ i ∈ bytePositions (d.sizeof CType.naturalAlign),
              (d.fieldAt CType.naturalAlign i).isSome = true)
          ∧ d.offsets CType.byteAlign = d.offsets CType.naturalAlign
          ∧ d.sizeof CType.byteAlign = d.sizeof CType.naturalAlign)
      ∧ FactoryResetCommand.decl.sizeof CType.naturalAlign = 6
      ∧ FactoryResetCommand.decl.offsets CType.naturalAlign = [0, 2, 4]
      ∧ GetOutputSettingsCommand.decl.sizeof CType.naturalAlign = 1
      ∧ GetOutputSettingsCommand.decl.offsets CType.naturalAlign = [0]
      ∧ UpdateSettingsCommand.decl.sizeof CType.naturalAlign = 3
      ∧ UpdateSettingsCommand.decl.offsets CType.naturalAlign = [0, 1, 2]
      ∧ SetRelayCommand.decl.sizeof CType.naturalAlign = 2
      ∧ SetRelayCommand.decl.offsets CType.naturalAlign = [0, 1]
      ∧ SetPwmDutyCommand.decl.sizeof CType.naturalAlign = 2
      ∧ SetPwmDutyCommand.decl.offsets CType.naturalAlign = [0, 1]
      ∧ ResetFuseCommand.decl.sizeof CType.naturalAlign = 1
      ∧ ResetFuseCommand.decl.offsets CType.naturalAlign = [0]
      ∧ ConfigureOutputCommand.decl.sizeof CType.naturalAlign = 19
      ∧ ConfigureOutputCommand.decl.offsets CType.naturalAlign = [0, 1, 2, 3]
      ∧ ConfigureOutputCommand.decl.offsetOf CType.naturalAlign "name" = some 3
      ∧ (bytePositions 19).filter
            (fun i => ConfigureOutputCommand.decl.fieldAt CType.naturalAlign i
              == some "name")
          = [3, 4, 5, 6, 7, 8, 9, 10, 11, 12, 13, 14, 15, 16, 17, 18] := by
  decide

/-- C9: in the five records that have an outputNumber field it is the first
field, a uint8_t at offset 0, so byte 0 of the record is the output index and
byte 1 is not; FactoryResetCommand and UpdateSettingsCommand have no field of
that name. -/
theorem outputNumber_first_field :
    (∀ d ∈ [GetOutputSettingsCommand.decl, SetRelayCommand.decl,
            SetPwmDutyCommand.decl, ResetFuseCommand.decl,
            ConfigureOutputCommand.decl],
        d.fields.head? = some ⟨"outputNumber", .uint8⟩
          ∧ d.offsetOf CType.naturalAlign "outputNumber" = some 0
          ∧ d.offsetOf CType.byteAlign "outputNumber" = some 0
          ∧ d.fieldAt CType.naturalAlign 0 = some "outputNumber"
          ∧ d.fieldAt CType.naturalAlign 1 ≠ some "outputNumber"
          ∧ (d.fields.filter (fun f => f.name == "outputNumber")).length = 1)
      ∧ (∀ d ∈ [FactoryResetCommand.decl, UpdateSettingsCommand.decl],
          d.offsetOf CType.naturalAlign "outputNumber" = none
            ∧ (∀ f ∈ d.fields, f.name ≠ "outputNumber"))
      ∧ payloadRecords.filter
            (fun d => (d.offsetOf CType.naturalAlign "outputNumber").isSome)
          = [GetOutputSettingsCommand.decl, SetRelayCommand.decl,
             SetPwmDutyCommand.decl, ResetFuseCommand.decl,
             ConfigureOutputCommand.decl] := by
  decide

/-- C10: every payload record of the header is between 1 and 19 bytes long,
ConfigureOutputCommand alone reaches 19, and so one opcode byte followed by one
payload record makes a message of 2 to 20 bytes. -/
theorem payload_size_bounds :
    (∀ d ∈ payloadRecords,
        1 ≤ d.sizeof CType.naturalAlign ∧ d.sizeof CType.naturalAlign ≤ 19
          ∧ 2 ≤ 1 + d.sizeof CType.naturalAlign
          ∧ 1 + d.sizeof CType.naturalAlign ≤ 20)
      ∧ ConfigureOutputCommand.decl ∈ payloadRecords
      ∧ ConfigureOutputCommand.decl.sizeof CType.naturalAlign = 19
      ∧ (∀ d ∈ payloadRecords,
          d.sizeof CType.naturalAlign = 19 → d = ConfigureOutputCommand.decl)
      ∧ (payloadRecords.map (StructDecl.sizeof CType.naturalAlign)).foldl max 0 = 19
      ∧ (payloadRecords.map (StructDecl.sizeof CType.naturalAlign)).foldl min 19 = 1 := by
  decide

/-- C8: the record type puts no bound on duty beyond the range of a uint8_t:
every d in 0..255 is the duty of some SetPwmDutyCommand, every d in 101..255
among them, and duty at most 100 is not an invariant of the type. -/
theorem setPwmDuty_duty_unconstrained :
    (∀ d : Nat, d ≤ 255 → ∃ c : SetPwmDutyCommand, c.duty.val = d)
      ∧ (∀ d : Nat, 101 ≤ d → d ≤ 255 →
          ∃ c : SetPwmDutyCommand, c.duty.val = d ∧ ¬ c.duty.val ≤ 100)
      ∧ (∀ d : uint8_t, ∃ c : SetPwmDutyCommand, c.duty = d)
      ∧ ¬ (∀ c : SetPwmDutyCommand, c.duty.val ≤ 100)
      ∧ (∃ c : SetPwmDutyCommand, c.duty.val = 255)
      ∧ SetPwmDutyCommand.decl.fields.map (fun f => (f.name, f.type))
          = [("outputNumber", .uint8), ("duty", .uint8)] := by
  refine ⟨?_, ?_, ?_, ?_, ⟨⟨0, 255⟩, rfl⟩, by decide⟩
  · intro d hd
    exact ⟨⟨0, ⟨d, by omega⟩⟩, rfl⟩
  · intro d h1 h2
    exact ⟨⟨0, ⟨d, by omega⟩⟩, rfl, by show ¬ d ≤ 100; omega⟩
  · intro d
    exact ⟨⟨0, d⟩, rfl⟩
  · intro h
    exact absurd (h ⟨0, 255⟩) (by decide)

/-! ## Theorems on the wire encoding -/

/-- A 16-bit field survives the trip through its two wire bytes, in either
byte order. -/
theorem decodeU16_encodeU16 (bo : ByteOrder) (v : uint16_t) :
    ∃ b0 b1, encodeU16 bo v = [b0, b1] ∧ decodeU16 bo b0 b1 = v := by
  have hv := v.isLt
  cases bo
  · refine ⟨_, _, rfl, ?_⟩
    apply Fin.ext
    simp only [decodeU16]
    omega
  · refine ⟨_, _, rfl, ?_⟩
    apply Fin.ext
    simp only [decodeU16]
    omega

/-- The encoders emit exactly as many bytes as the layout of the declaration
gives the record. -/
theorem encode_length_eq_sizeof (bo : ByteOrder) :
    (∀ c : FactoryResetCommand,
        (c.encode bo).length = FactoryResetCommand.decl.sizeof CType.naturalAlign)
      ∧ (∀ c : GetOutputSettingsCommand,
          c.encode.length = GetOutputSettingsCommand.decl.sizeof CType.naturalAlign)
      ∧ (∀ c : UpdateSettingsCommand,
          c.encode.length = UpdateSettingsCommand.decl.sizeof CType.naturalAlign)
      ∧ (∀ c : SetRelayCommand,
          c.encode.length = SetRelayCommand.decl.sizeof CType.naturalAlign)
      ∧ (∀ c : SetPwmDutyCommand,
          c.encode.length = SetPwmDutyCommand.decl.sizeof CType.naturalAlign)
      ∧ (∀ c : ResetFuseCommand,
          c.encode.length = ResetFuseCommand.decl.sizeof CType.naturalAlign)
      ∧ (∀ c : ConfigureOutputCommand,
          c.encode.length = ConfigureOutputCommand.decl.sizeof CType.naturalAlign) := by
  refine ⟨?_, fun _ => rfl, fun _ => rfl, fun _ => rfl, fun _ => rfl,
    fun _ => rfl, ?_⟩
  · intro c
    cases bo <;> rfl
  · intro c
    have h := c.name.property
    have e : ConfigureOutputCommand.decl.sizeof CType.naturalAlign = 19 := by decide
    simp only [ConfigureOutputCommand.encode, List.length_cons, h, e]

/-- Round trip of FactoryResetCommand in either byte order. -/
theorem factoryReset_decode_encode (bo : ByteOrder) (c : FactoryResetCommand) :
    FactoryResetCommand.decode bo (c.encode bo) = some c := by
  obtain ⟨s, a, b⟩ := c
  obtain ⟨s0, s1, hs, hs2⟩ := decodeU16_encodeU16 bo s
  obtain ⟨a0, a1, ha, ha2⟩ := decodeU16_encodeU16 bo a
  obtain ⟨b0, b1, hb, hb2⟩ := decodeU16_encodeU16 bo b
  simp only [FactoryResetCommand.encode, hs, ha, hb, List.cons_append, List.nil_append,
    FactoryResetCommand.decode, hs2, ha2, hb2]

/-- Round trip of ConfigureOutputCommand: all 16 name bytes come back. -/
theorem configureOutput_decode_encode (c : ConfigureOutputCommand) :
    ConfigureOutputCommand.decode c.encode = some c := by
  obtain ⟨o, t, f, n, hn⟩ := c
  simp only [ConfigureOutputCommand.encode, ConfigureOutputCommand.decode, hn, dite_true]

/-- C5: for each of the seven payload records, and for either byte order of
the 16-bit fields, decoding the wire bytes of an instance gives back that
instance, field for field; among them FactoryResetCommand with all fields 0
and with all fields 65535, outputNumber 0 and 255, duty 0 and 100. -/
theorem payload_roundtrip (bo : ByteOrder) :
    (∀ c : FactoryResetCommand, FactoryResetCommand.decode bo (c.encode bo) = some c)
      ∧ (∀ c : GetOutputSettingsCommand,
          GetOutputSettingsCommand.decode c.encode = some c)
      ∧ (∀ c : UpdateSettingsCommand, UpdateSettingsCommand.decode c.encode = some c)
      ∧ (∀ c : SetRelayCommand, SetRelayCommand.decode c.encode = some c)
      ∧ (∀ c : SetPwmDutyCommand, SetPwmDutyCommand.decode c.encode = some c)
      ∧ (∀ c : ResetFuseCommand, ResetFuseCommand.decode c.encode = some c)
      ∧ (∀ c : ConfigureOutputCommand, ConfigureOutputCommand.decode c.encode = some c)
      ∧ FactoryResetCommand.decode bo (FactoryResetCommand.encode bo ⟨0, 0, 0⟩)
          = some ⟨0, 0, 0⟩
      ∧ FactoryResetCommand.decode bo
            (FactoryResetCommand.encode bo ⟨65535, 65535, 65535⟩)
          = some ⟨65535, 65535, 65535⟩
      ∧ GetOutputSettingsCommand.decode (GetOutputSettingsCommand.encode ⟨0⟩)
          = some ⟨0⟩
      ∧ GetOutputSettingsCommand.decode (GetOutputSettingsCommand.encode ⟨255⟩)
          = some ⟨255⟩
      ∧ SetPwmDutyCommand.decode (SetPwmDutyCommand.encode ⟨0, 0⟩) = some ⟨0, 0⟩
      ∧ SetPwmDutyCommand.decode (SetPwmDutyCommand.encode ⟨255, 100⟩)
          = some ⟨255, 100⟩ := by
  exact ⟨factoryReset_decode_encode bo, fun _ => rfl, fun _ => rfl,
    fun _ => rfl, fun _ => rfl, fun _ => rfl, configureOutput_decode_encode,
    factoryReset_decode_encode bo _, factoryReset_decode_encode bo _,
    rfl, rfl, rfl, rfl⟩

/-- C6: the name of a ConfigureOutputCommand is 16 raw bytes: whatever the 16
bytes are, the record encodes to 19 bytes whose last 16 are the name unchanged,
and decoding gives back all 16 of them; so it is for sixteen letters A, which
hold no zero byte, and for a name with a zero byte in the middle. -/
theorem configureOutput_name_raw :
    (∀ c : ConfigureOutputCommand, c.name.val.length = 16)
      ∧ (∀ (o t f : uint8_t) (n : CharArray 16),
          (ConfigureOutputCommand.encode ⟨o, t, f, n⟩).length = 19
            ∧ (ConfigureOutputCommand.encode ⟨o, t, f, n⟩).drop 3 = n.val
            ∧ (ConfigureOutputCommand.encode ⟨o, t, f, n⟩).take 3 = [o, t, f]
            ∧ ConfigureOutputCommand.decode (ConfigureOutputCommand.encode ⟨o, t, f, n⟩)
                = some ⟨o, t, f, n⟩
            ∧ (ConfigureOutputCommand.decode
                  (ConfigureOutputCommand.encode ⟨o, t, f, n⟩)).map
                (fun c => c.name.val) = some n.val)
      ∧ (0 : uint8_t) ∉ nameAllA.val
      ∧ nameAllA.val = List.replicate 16 0x41
      ∧ (ConfigureOutputCommand.decode
            (ConfigureOutputCommand.encode ⟨7, 1, 5, nameAllA⟩)).map
          (fun c => c.name.val) = some (List.replicate 16 0x41)
      ∧ (0 : uint8_t) ∈ nameEmbeddedNul.val
      ∧ (ConfigureOutputCommand.decode
            (ConfigureOutputCommand.encode ⟨7, 1, 5, nameEmbeddedNul⟩)).map
          (fun c => c.name.val)
          = some [0x41, 0x42, 0x00, 0x43, 0x43, 0x43, 0x43, 0x43, 0x43, 0x43, 0x43,
                  0x43, 0x43, 0x43, 0x43, 0x43] := by
  refine ⟨fun c => c.name.property, ?_, by decide, rfl, by decide, by decide,
    by decide⟩
  intro o t f n
  have hrt := configureOutput_decode_encode ⟨o, t, f, n⟩
  refine ⟨?_, rfl, rfl, hrt, ?_⟩
  · simp only [ConfigureOutputCommand.encode, List.length_cons, n.property]
  · rw [hrt]
    rfl

/-- C7, as stated, fails: the all-zero GetOutputSettingsCommand encodes to the
single byte 0x00, the very byte that encodes END. -/
theorem end_equals_zero_payload :
    GetOutputSettingsCommand.encode GetOutputSettingsCommand.zero = [0]
      ∧ USBCommand.END.encode = [0]
      ∧ ¬ (GetOutputSettingsCommand.encode GetOutputSettingsCommand.zero
            ≠ USBCommand.END.encode) := by
  decide

/-- C7, amended: the all-zero instance of every payload record longer than one
byte (FactoryResetCommand in either byte order, UpdateSettingsCommand,
SetRelayCommand, SetPwmDutyCommand, ConfigureOutputCommand) differs from the
single byte 0x00 that encodes END, while the all-zero instances of the two
one-byte records, GetOutputSettingsCommand and ResetFuseCommand, are that very
byte. -/
theorem end_vs_zero_payload :
    (∀ bo : ByteOrder,
        FactoryResetCommand.encode bo FactoryResetCommand.zero ≠ USBCommand.END.encode)
      ∧ UpdateSettingsCommand.encode UpdateSettingsCommand.zero ≠ USBCommand.END.encode
      ∧ SetRelayCommand.encode SetRelayCommand.zero ≠ USBCommand.END.encode
      ∧ SetPwmDutyCommand.encode SetPwmDutyCommand.zero ≠ USBCommand.END.encode
      ∧ ConfigureOutputCommand.encode ConfigureOutputCommand.zero
          ≠ USBCommand.END.encode
      ∧ GetOutputSettingsCommand.encode GetOutputSettingsCommand.zero
          = USBCommand.END.encode
      ∧ ResetFuseCommand.encode ResetFuseCommand.zero = USBCommand.END.encode := by
  refine ⟨?_, by decide, by decide, by decide, by decide, by decide, by decide⟩
  intro bo
  cases bo <;> decide

end KomaHub
